import Mathlib

/-!
Verification of the bulk file-ingestion engine in `photo_move.py` and its
reporter in `record_logging.py`.

The Python code is shallowly embedded as follows.

* Paths are strings with `/` as the separator, mirroring `os.path.join`,
  `os.path.dirname`, `os.path.basename` and `os.path.relpath` on the
  paths the engine actually produces: every candidate comes out of
  `os.walk(source_root)`, so the directory handed to `relpath` is always
  the source root itself or strictly below it, and `os.path.relpath`
  then returns `"."` or the already-normalised suffix (which is why
  `os.path.normpath` is the identity on it and is not modelled
  separately).
* The filesystem is an explicit state `FS`: a key/value list of regular
  files (content bytes plus creation timestamp), a list of existing
  directories, and a list of paths on which creating or writing fails
  (modelling permission errors and similar environmental failures).
  Fallible filesystem operations return `Except String`, the Python
  exception being the error message.
* `datetime.fromtimestamp(t).strftime('%Y%m%d')` is modelled as a pure
  function of the POSIX timestamp in a fixed (UTC) timezone, using the
  standard civil-from-days calendar computation; the claims only need
  that the formatted date is a deterministic function of the timestamp.
* The cryptographic digest of `hashlib` is modelled as a deterministic
  function of the algorithm name and the file content, which is the only
  property of the digest the engine relies on.
* `os.walk` collection is modelled by `discover`: the files below the
  source root whose basename ends with the suffix, in filesystem order.
  `os.walk` with the default `onerror=None` silently ignores an
  unreadable or nonexistent root, which `discover` reflects by returning
  `[]` when no file lies below the root.
-/

/-- Split a character list at a separator character (helper for
`splitSep`). -/
def splitSegsAux (sep : Char) : List Char → List Char → List (List Char)
  | [], acc => [acc.reverse]
  | c :: rest, acc =>
    if c = sep then acc.reverse :: splitSegsAux sep rest []
    else splitSegsAux sep rest (c :: acc)

/-- Python `s.split(os.sep)` with `/` as the separator. -/
def splitSep (s : String) : List String :=
  (splitSegsAux '/' s.data []).map List.asString

/-- Join strings with a separator (`sep.join(parts)`). -/
def joinSep (sep : String) : List String → String
  | [] => ""
  | [x] => x
  | x :: y :: rest => x ++ sep ++ joinSep sep (y :: rest)

/-- Python `s.startswith(pre)`. -/
def strStartsWith (s pre : String) : Bool :=
  pre.data.isPrefixOf s.data

/-- Python `s.endswith(suf)`. -/
def strEndsWith (s suf : String) : Bool :=
  suf.data.isSuffixOf s.data

/-- Python `s[n:]` (character slicing). -/
def strDrop (s : String) (n : Nat) : String :=
  (s.data.drop n).asString

/-- Replace leftmost non-overlapping occurrences of `pat` in the
character list, with enough fuel to consume the whole list (helper for
`strReplace`). -/
def replaceFuel (pat repl : List Char) : Nat → List Char → List Char
  | _, [] => []
  | 0, l => l
  | fuel + 1, c :: rest =>
    if pat.isPrefixOf (c :: rest) then
      repl ++ replaceFuel pat repl fuel (List.drop pat.length (c :: rest))
    else c :: replaceFuel pat repl fuel rest

/-- Python `s.replace(pat, repl)`: replace every leftmost
non-overlapping occurrence of `pat` by `repl`, scanning left to
right. -/
def strReplace (s pat repl : String) : String :=
  (replaceFuel pat.data repl.data s.data.length s.data).asString

/-- `os.path.join a b` for a relative second component: `a ++ "/" ++ b`,
or `b` when `a` is empty. -/
def os_join (a b : String) : String :=
  if a = "" then b else a ++ "/" ++ b

/-- `os.path.join a *segs`: fold `os_join` over the segments. -/
def os_joinList (a : String) (segs : List String) : String :=
  segs.foldl os_join a

/-- `os.path.dirname`: everything before the last separator (empty when
there is no separator). -/
def dirname (p : String) : String :=
  let parts := splitSep p
  if parts.length ≤ 1 then "" else joinSep "/" parts.dropLast

/-- `os.path.basename`: everything after the last separator. -/
def basename (p : String) : String :=
  (splitSep p).getLastD ""

/-- `os.path.relpath p root`, modelled for the only case the engine
reaches (`p` at or below `root`, since `p` is the directory of a file
found by walking `root`): `"."` when they are equal, otherwise the
suffix after `root ++ "/"`. -/
def relpath (p root : String) : String :=
  if p = root then "."
  else if strStartsWith p (root ++ "/") then strDrop p (root.length + 1)
  else p

/-- Civil date (year, month, day) from a count of days since 1970-01-01,
the standard era-based calendar algorithm. -/
def civilFromDays (z : Nat) : Nat × Nat × Nat :=
  let z' := z + 719468
  let era := z' / 146097
  let doe := z' % 146097
  let yoe := (doe - doe / 1460 + doe / 36524 - doe / 146096) / 365
  let y := yoe + era * 400
  let doy := doe - (365 * yoe + yoe / 4 - yoe / 100)
  let mp := (5 * doy + 2) / 153
  let d := doy - (153 * mp + 2) / 5 + 1
  let m := if mp < 10 then mp + 3 else mp - 9
  (if m ≤ 2 then y + 1 else y, m, d)

/-- Zero-pad a numeral to two digits (`%m`, `%d`). -/
def pad2 (n : Nat) : String :=
  if n < 10 then "0" ++ toString n else toString n

/-- Zero-pad a numeral to four digits (`%Y`, for the years reachable
from nonnegative POSIX timestamps). -/
def pad4 (n : Nat) : String :=
  if n < 10 then "000" ++ toString n
  else if n < 100 then "00" ++ toString n
  else if n < 1000 then "0" ++ toString n
  else toString n

/-- `datetime.fromtimestamp(t).strftime('%Y%m%d')` in a fixed (UTC)
timezone: format the civil date of the timestamp as `YYYYMMDD`. -/
def fmtYYYYMMDD (t : Nat) : String :=
  let ymd := civilFromDays (t / 86400)
  pad4 ymd.1 ++ pad2 ymd.2.1 ++ pad2 ymd.2.2

/-- A regular file's observable state: content bytes and creation
timestamp (`os.path.getctime`). -/
structure FileData where
  content : List Nat
  ctime : Nat
deriving DecidableEq, Repr

/-- Explicit filesystem state: regular files keyed by path, existing
directories, and paths on which directory creation or writing fails
(permission errors and similar). -/
structure FS where
  files : List (String × FileData)
  dirs : List String
  badPaths : List String
deriving DecidableEq, Repr

/-- Look up a regular file by path. -/
def FS.findFile (fs : FS) (p : String) : Option FileData :=
  match fs.files.find? (fun kv => kv.1 = p) with
  | some kv => some kv.2
  | none => none

/-- `os.path.exists`: true for an existing regular file or directory. -/
def FS.exists (fs : FS) (p : String) : Bool :=
  (fs.findFile p).isSome || fs.dirs.contains p

/-- `os.path.getctime`: the creation timestamp of an existing file,
`OSError` otherwise. -/
def FS.getctime (fs : FS) (p : String) : Except String Nat :=
  match fs.findFile p with
  | some d => .ok d.ctime
  | none => .error ("FileNotFoundError: getctime " ++ p)

/-- `os.makedirs(p, exist_ok=True)`: a no-op on an existing directory;
`FileExistsError` when a regular file occupies the path;
`PermissionError` on a bad path; otherwise the directory is created. -/
def FS.makedirs (fs : FS) (p : String) : Except String FS :=
  if fs.dirs.contains p then .ok fs
  else if (fs.findFile p).isSome then .error ("FileExistsError: " ++ p)
  else if fs.badPaths.contains p then .error ("PermissionError: " ++ p)
  else .ok { fs with dirs := p :: fs.dirs }

/-- Insert or overwrite the file at `p`. -/
def setFile (files : List (String × FileData)) (p : String) (d : FileData) :
    List (String × FileData) :=
  if files.any (fun kv => kv.1 = p) then
    files.map (fun kv => if kv.1 = p then (p, d) else kv)
  else files ++ [(p, d)]

/-- `shutil.copy2 src dst`: fails when the source is missing or the
destination path is bad; otherwise the destination file becomes a copy
of the source (content and metadata). -/
def FS.copy2 (fs : FS) (src dst : String) : Except String FS :=
  match fs.findFile src with
  | none => .error ("FileNotFoundError: " ++ src)
  | some d =>
    if fs.badPaths.contains dst then .error ("PermissionError: " ++ dst)
    else .ok { fs with files := setFile fs.files dst d }

/-- The `hashlib` digest, modelled as a deterministic function of the
algorithm name and the streamed content (the engine only compares
digests for equality). -/
def hashDigest (algorithm : String) (content : List Nat) : String :=
  algorithm ++ ":" ++ joinSep "," (content.map toString)

/-- `_compute_file_hash`: stream the file and return its digest, or
`IOError` when the file cannot be opened. -/
def _compute_file_hash (fs : FS) (file_path : String) (algorithm : String) :
    Except String String :=
  match fs.findFile file_path with
  | some d => .ok (hashDigest algorithm d.content)
  | none => .error ("FileNotFoundError: " ++ file_path)

/-- The preserve-directory loop of `_generate_target_path`: scan
`preserve_dirs` in order; for the first entry present among
`path_segments`, join `target_root` with the segment suffix starting at
that entry's first index; with no match, `target_root` itself. -/
def targetSubdirOf (target_root : String) (preserve_dirs path_segments : List String) :
    String :=
  match preserve_dirs with
  | [] => target_root
  | d :: rest =>
    if path_segments.contains d then
      os_joinList target_root (path_segments.drop (path_segments.indexOf d))
    else targetSubdirOf target_root rest path_segments

/-- `_generate_target_path`: relative directory segments, the
preserve-directory match, date substitution of the literal token
`"data_str"`, directory creation, and the final joined destination. -/
def _generate_target_path (fs : FS) (source_root target_root : String)
    (preserve_dirs : List String) (src_path : String) :
    Except String (FS × String) :=
  let relative_path := relpath (dirname src_path) source_root
  let path_segments := splitSep relative_path
  let target_subdir := targetSubdirOf target_root preserve_dirs path_segments
  match fs.getctime src_path with
  | .error e => .error e
  | .ok creation_time =>
    let date_str := fmtYYYYMMDD creation_time
    let target_subdir2 := strReplace target_subdir "data_str" date_str
    match fs.makedirs target_subdir2 with
    | .error e => .error e
    | .ok fs2 => .ok (fs2, os_join target_subdir2 (basename src_path))

/-- Outcome of the guarded body of the copy loop. -/
inductive CopyOutcome
  | copied
  | skipped
deriving DecidableEq, Repr

/-- The `try` body of the copy loop: existence check, overwrite policy,
and the copy itself. -/
def copyTryBody (fs : FS) (overwrite : Bool) (src_path dest_path : String) :
    Except String (FS × CopyOutcome) :=
  if fs.exists dest_path then
    if overwrite then
      match fs.copy2 src_path dest_path with
      | .error e => .error e
      | .ok fs2 => .ok (fs2, .copied)
    else .ok (fs, .skipped)
  else
    match fs.copy2 src_path dest_path with
    | .error e => .error e
    | .ok fs2 => .ok (fs2, .copied)

/-- Phase 2 of `enhanced_file_copy`: derive each candidate's destination
(outside the `try`, so a derivation error propagates), then run the
guarded body, recording the candidate as copied, skipped or failed;
returns the final state with the `copied`, `skipped` and `failed`
lists. -/
def copyPhase (fs : FS) (source_root target_root : String)
    (preserve_dirs : List String) (overwrite : Bool) :
    List String →
      Except String (FS × List String × List String × List (String × String))
  | [] => .ok (fs, [], [], [])
  | src_path :: rest =>
    match _generate_target_path fs source_root target_root preserve_dirs src_path with
    | .error e => .error e
    | .ok (fs1, dest_path) =>
      match copyTryBody fs1 overwrite src_path dest_path with
      | .ok (fs2, .copied) =>
        match copyPhase fs2 source_root target_root preserve_dirs overwrite rest with
        | .error e => .error e
        | .ok (fs3, c, s, f) => .ok (fs3, src_path :: c, s, f)
      | .ok (fs2, .skipped) =>
        match copyPhase fs2 source_root target_root preserve_dirs overwrite rest with
        | .error e => .error e
        | .ok (fs3, c, s, f) => .ok (fs3, c, src_path :: s, f)
      | .error e =>
        match copyPhase fs1 source_root target_root preserve_dirs overwrite rest with
        | .error e2 => .error e2
        | .ok (fs3, c, s, f) => .ok (fs3, c, s, (src_path, e) :: f)

/-- The `try` body of the verification loop: destination existence check
(raising `目标文件不存在` when missing), then both digests; returns
whether they differ. -/
def verifyTryBody (fs : FS) (hash_algorithm : String) (src_path dest_path : String) :
    Except String Bool :=
  if fs.exists dest_path then
    match _compute_file_hash fs src_path hash_algorithm with
    | .error e => .error e
    | .ok src_hash =>
      match _compute_file_hash fs dest_path hash_algorithm with
      | .error e => .error e
      | .ok dest_hash => .ok (src_hash != dest_hash)
  else .error ("目标文件不存在: " ++ dest_path)

/-- Phase 3 of `enhanced_file_copy`: for each copied path, re-derive the
destination (outside the `try`, so a derivation error propagates), then
run the guarded body; a raised error is recorded in `failed` with the
`Hash校验失败` wrapper, a digest inequality in `hash_mismatch`. -/
def verifyPhase (fs : FS) (source_root target_root : String)
    (preserve_dirs : List String) (hash_algorithm : String) :
    List String → Except String (FS × List (String × String) × List String)
  | [] => .ok (fs, [], [])
  | src_path :: rest =>
    match _generate_target_path fs source_root target_root preserve_dirs src_path with
    | .error e => .error e
    | .ok (fs1, dest_path) =>
      match verifyTryBody fs1 hash_algorithm src_path dest_path with
      | .ok true =>
        match verifyPhase fs1 source_root target_root preserve_dirs hash_algorithm rest with
        | .error e => .error e
        | .ok (fs2, f, hm) => .ok (fs2, f, src_path :: hm)
      | .ok false =>
        match verifyPhase fs1 source_root target_root preserve_dirs hash_algorithm rest with
        | .error e => .error e
        | .ok (fs2, f, hm) => .ok (fs2, f, hm)
      | .error e =>
        match verifyPhase fs1 source_root target_root preserve_dirs hash_algorithm rest with
        | .error e2 => .error e2
        | .ok (fs2, f, hm) => .ok (fs2, (src_path, "Hash校验失败: " ++ e) :: f, hm)

/-- Phase 1 of `enhanced_file_copy`: the candidates produced by
`os.walk(source_root)` with the suffix filter — the regular files below
the source root whose basename ends with the suffix. `os.walk` with the
default `onerror=None` silently ignores an unreadable or nonexistent
root, so such a root yields no candidates rather than an error. -/
def discover (fs : FS) (source_root file_suffix : String) : List String :=
  (fs.files.map Prod.fst).filter
    (fun p => strStartsWith p (source_root ++ "/") && strEndsWith (basename p) file_suffix)

/-- The result dictionary of `enhanced_file_copy`. -/
structure CopyResult where
  total_files : Nat
  copied : List String
  skipped : List String
  failed : List (String × String)
  hash_mismatch : List String
deriving DecidableEq, Repr

/-- `enhanced_file_copy`: discovery, copy phase, verification phase, and
the accumulated result (`failed` collects the copy-phase failures
followed by the verification failures). -/
def enhanced_file_copy (fs : FS) (source_root target_root : String)
    (preserve_dirs : List String) (file_suffix : String)
    (overwrite : Bool) (hash_algorithm : String) :
    Except String (FS × CopyResult) :=
  let file_list := discover fs source_root file_suffix
  match copyPhase fs source_root target_root preserve_dirs overwrite file_list with
  | .error e => .error e
  | .ok (fs1, copied, skipped, failed) =>
    match verifyPhase fs1 source_root target_root preserve_dirs hash_algorithm copied with
    | .error e => .error e
    | .ok (fs2, failed2, mismatch) =>
      .ok (fs2, { total_files := file_list.length, copied := copied, skipped := skipped,
                  failed := failed ++ failed2, hash_mismatch := mismatch })

/-- A Python value stored in the result dictionary. -/
inductive PyVal
  | vnat (n : Nat)
  | vlist (l : List String)
  | vpairs (l : List (String × String))
deriving DecidableEq, Repr

/-- A Python dictionary with string keys. -/
def PyDict : Type := List (String × PyVal)

/-- Python subscript `d[k]`: the stored value, or a `KeyError`. -/
def dictGet (d : PyDict) (k : String) : Except String PyVal :=
  match d.find? (fun kv => kv.1 = k) with
  | some kv => .ok kv.2
  | none => .error ("KeyError: " ++ k)

/-- The dictionary shape of the engine's result: it is initialised with
exactly these five keys and only their values are ever mutated. -/
def CopyResult.toDict (r : CopyResult) : PyDict :=
  [("total_files", .vnat r.total_files),
   ("copied", .vlist r.copied),
   ("skipped", .vlist r.skipped),
   ("failed", .vpairs r.failed),
   ("hash_mismatch", .vlist r.hash_mismatch)]

/-- Length of the list held under a key, for the reporter's summary
line. -/
def pyLen : PyVal → Nat
  | .vnat n => n
  | .vlist l => l.length
  | .vpairs l => l.length

/-- `log_operation_results` from `record_logging.py`: the summary line
reads `result['file_type']` first (Python evaluates the f-string left to
right), then the counts; then one error line per failure and one warning
line per hash mismatch. Returns the emitted log lines, or the
uncaught exception. -/
def log_operation_results (dev : String) (result : PyDict) :
    Except String (List String) :=
  match dictGet result "file_type" with
  | .error e => .error e
  | .ok ft =>
    match dictGet result "total_files" with
    | .error e => .error e
    | .ok tf =>
      match dictGet result "copied" with
      | .error e => .error e
      | .ok cp =>
        match dictGet result "skipped" with
        | .error e => .error e
        | .ok sk =>
          match dictGet result "failed" with
          | .error e => .error e
          | .ok fl =>
            match dictGet result "hash_mismatch" with
            | .error e => .error e
            | .ok hm =>
              let summary := "设备: " ++ dev ++ " " ++
                (match ft with
                 | .vnat n => toString n
                 | .vlist _ => ""
                 | .vpairs _ => "") ++
                "类型文件操作完成 | 总数: " ++ toString (pyLen tf) ++
                " 成功: " ++ toString (pyLen cp) ++
                " 跳过: " ++ toString (pyLen sk) ++
                " 失败: " ++ toString (pyLen fl)
              let errLines :=
                (match fl with
                 | .vpairs l =>
                   l.map (fun pr => "文件复制失败: " ++ pr.1 ++ " | 错误: " ++ pr.2)
                 | _ => [])
              let warnLines :=
                (match hm with
                 | .vlist l => l.map (fun p => "哈希校验失败: " ++ p)
                 | _ => [])
              .ok (summary :: errLines ++ warnLines)

/-- Decidable equality for `Except`, to evaluate the embedding on
concrete inputs. -/
instance instDecEqExcept {ε α : Type} [DecidableEq ε] [DecidableEq α] :
    DecidableEq (Except ε α)
  | .ok a, .ok b =>
    if h : a = b then .isTrue (by rw [h])
    else .isFalse (fun hc => h (by injection hc))
  | .ok _, .error _ => .isFalse (fun hc => by injection hc)
  | .error _, .ok _ => .isFalse (fun hc => by injection hc)
  | .error a, .error b =>
    if h : a = b then .isTrue (by rw [h])
    else .isFalse (fun hc => h (by injection hc))

/-- The target subdirectory a successful derivation creates, as a
function of the configuration and the source file's creation
timestamp (the subterm of `_generate_target_path` before `makedirs`). -/
def subdirFor (source_root target_root : String) (preserve_dirs : List String)
    (src_path : String) (ct : Nat) : String :=
  strReplace
    (targetSubdirOf target_root preserve_dirs
      (splitSep (relpath (dirname src_path) source_root)))
    "data_str" (fmtYYYYMMDD ct)

/-- The destination path a successful derivation returns, as a function
of the configuration and the source file's creation timestamp. -/
def destFor (source_root target_root : String) (preserve_dirs : List String)
    (src_path : String) (ct : Nat) : String :=
  os_join (subdirFor source_root target_root preserve_dirs src_path ct)
    (basename src_path)

/-- Concrete one-file source tree for evaluating the engine. -/
def fsIngest : FS :=
  { files := [("src/a.JPG", ⟨[1, 2], 100⟩)], dirs := ["src"], badPaths := [] }

/-- `fsIngest` after a full ingestion run into target root `tgt`. -/
def fsIngested : FS :=
  { files := [("src/a.JPG", ⟨[1, 2], 100⟩), ("tgt/a.JPG", ⟨[1, 2], 100⟩)],
    dirs := ["tgt", "src"], badPaths := [] }

/-- The result of a full ingestion run on `fsIngest`. -/
def rIngest : CopyResult :=
  { total_files := 1, copied := ["src/a.JPG"], skipped := [], failed := [],
    hash_mismatch := [] }

/-- Source tree whose target root cannot be created (permission
denied), so destination-path derivation raises. -/
def fsBadTargetRoot : FS :=
  { files := [("src/a.JPG", ⟨[1], 0⟩)], dirs := ["src"], badPaths := ["tgt"] }

/-- Source tree whose derived destination file cannot be written, so
the copy itself (inside the `try`) raises. -/
def fsBadDestFile : FS :=
  { files := [("src/a.JPG", ⟨[1], 5⟩)], dirs := ["src"], badPaths := ["tgt/a.JPG"] }

/-- `fsBadDestFile` after the derivation step created `tgt`. -/
def fsBadDestFileDir : FS :=
  { files := [("src/a.JPG", ⟨[1], 5⟩)], dirs := ["tgt", "src"], badPaths := ["tgt/a.JPG"] }

/-- Tree with a source file whose derived destination is missing at
verification time. -/
def fsMissingDest : FS :=
  { files := [("src/a.JPG", ⟨[1], 100⟩)], dirs := ["src", "tgt"], badPaths := [] }

/-- Tree whose destination file exists with content diverging from the
source. -/
def fsDivergedDest : FS :=
  { files := [("src/a.JPG", ⟨[1], 100⟩), ("tgt/a.JPG", ⟨[2], 100⟩)],
    dirs := ["src", "tgt"], badPaths := [] }

/-- The two-file scenario tree of the specification: `A/PANORAMA/img1.JPG`
created 2024-03-01 and `A/B/img2.JPG` created 2024-03-02 (UTC). -/
def fsScenario : FS :=
  { files := [("A/PANORAMA/img1.JPG", ⟨[1, 2, 3], 19783 * 86400⟩),
              ("A/B/img2.JPG", ⟨[4, 5], 19784 * 86400⟩)],
    dirs := ["A", "A/PANORAMA", "A/B"], badPaths := [] }

/-- `fsScenario` after deriving `img1.JPG`'s destination (its
subdirectory has been created). -/
def fsScenarioOut1 : FS :=
  { files := fsScenario.files,
    dirs := ["T/20240301/PANORAMA", "A", "A/PANORAMA", "A/B"], badPaths := [] }

/-- `fsScenario` after deriving `img2.JPG`'s destination. -/
def fsScenarioOut2 : FS :=
  { files := fsScenario.files,
    dirs := ["T/20240302", "A", "A/PANORAMA", "A/B"], badPaths := [] }

/-- A tree in which the queried source root does not exist at all. -/
def fsNoRoot : FS :=
  { files := [("other/x.JPG", ⟨[7], 100⟩)], dirs := ["other"], badPaths := [] }

/-- `_generate_target_path` unfolded: read the creation time, create the
substituted subdirectory, return the joined destination; each fallible
step propagates its error. -/
lemma gtp_eq (fs : FS) (sr tr : String) (pd : List String) (src : String) :
    _generate_target_path fs sr tr pd src =
      match fs.getctime src with
      | .error e => .error e
      | .ok ct =>
        match fs.makedirs (subdirFor sr tr pd src ct) with
        | .error e => .error e
        | .ok fs2 => .ok (fs2, destFor sr tr pd src ct) := rfl

/-- Successful derivation, destructured. -/
lemma gtp_ok_elim {fs : FS} {sr tr : String} {pd : List String} {src : String}
    {fsa : FS} {d : String}
    (h : _generate_target_path fs sr tr pd src = .ok (fsa, d)) :
    ∃ ct, fs.getctime src = .ok ct ∧
      fs.makedirs (subdirFor sr tr pd src ct) = .ok fsa ∧
      d = destFor sr tr pd src ct := by
  rw [gtp_eq] at h
  cases hct : fs.getctime src with
  | error e => simp [hct] at h
  | ok ct =>
    simp only [hct] at h
    cases hmk : fs.makedirs (subdirFor sr tr pd src ct) with
    | error e => simp [hmk] at h
    | ok fs2 =>
      simp only [hmk, Except.ok.injEq, Prod.mk.injEq] at h
      exact ⟨ct, rfl, by rw [← h.1]; exact hmk, h.2.symm⟩

/-- `makedirs` on an already existing directory is a no-op. -/
lemma makedirs_of_mem {fs : FS} {p : String} (h : p ∈ fs.dirs) :
    fs.makedirs p = .ok fs := by
  unfold FS.makedirs
  rw [if_pos (List.elem_iff.mpr h)]

/-- A successful derivation whose subdirectory already exists returns
the formula destination and leaves the filesystem unchanged. -/
lemma gtp_of_dirs {fs : FS} {sr tr : String} {pd : List String} {src : String} {ct : Nat}
    (hct : fs.getctime src = .ok ct)
    (hdir : subdirFor sr tr pd src ct ∈ fs.dirs) :
    _generate_target_path fs sr tr pd src = .ok (fs, destFor sr tr pd src ct) := by
  rw [gtp_eq]
  simp only [hct, makedirs_of_mem hdir]

/-- The empty copy phase. -/
lemma copyPhase_nil (fs : FS) (sr tr : String) (pd : List String) (ow : Bool) :
    copyPhase fs sr tr pd ow [] = .ok (fs, [], [], []) := rfl

/-- The copy phase partitions the candidate list: the copied, skipped
and failed-source lists together are a permutation of the candidates. -/
lemma copyPhase_perm {sr tr : String} {pd : List String} {ow : Bool}
    {l : List String} {fs fs' : FS} {c s : List String} {f : List (String × String)}
    (h : copyPhase fs sr tr pd ow l = .ok (fs', c, s, f)) :
    (c ++ s ++ f.map Prod.fst).Perm l := by
  induction l generalizing fs fs' c s f with
  | nil =>
    simp only [copyPhase, Except.ok.injEq, Prod.mk.injEq] at h
    obtain ⟨-, hc, hs, hf⟩ := h
    subst hc; subst hs; subst hf
    simp
  | cons p rest ih =>
    simp only [copyPhase] at h
    cases hg : _generate_target_path fs sr tr pd p with
    | error e => simp only [hg] at h; exact (Except.noConfusion h)
    | ok pr =>
      obtain ⟨fs1, dest⟩ := pr
      simp only [hg] at h
      cases hb : copyTryBody fs1 ow p dest with
      | ok pr2 =>
        obtain ⟨fs2, oc⟩ := pr2
        cases oc with
        | copied =>
          simp only [hb] at h
          cases hr : copyPhase fs2 sr tr pd ow rest with
          | error e2 => simp only [hr] at h; exact (Except.noConfusion h)
          | ok tup =>
            obtain ⟨fs3, c', s', f'⟩ := tup
            simp only [hr, Except.ok.injEq, Prod.mk.injEq] at h
            obtain ⟨-, hc, hs, hf⟩ := h
            subst hc; subst hs; subst hf
            exact (ih hr).cons p
        | skipped =>
          simp only [hb] at h
          cases hr : copyPhase fs2 sr tr pd ow rest with
          | error e2 => simp only [hr] at h; exact (Except.noConfusion h)
          | ok tup =>
            obtain ⟨fs3, c', s', f'⟩ := tup
            simp only [hr, Except.ok.injEq, Prod.mk.injEq] at h
            obtain ⟨-, hc, hs, hf⟩ := h
            subst hc; subst hs; subst hf
            exact ((List.Perm.append_right (f'.map Prod.fst)
              (@List.perm_middle _ p c' s')).trans ((ih hr).cons p))
      | error e =>
        simp only [hb] at h
        cases hr : copyPhase fs1 sr tr pd ow rest with
        | error e2 => simp only [hr] at h; exact (Except.noConfusion h)
        | ok tup =>
          obtain ⟨fs3, c', s', f'⟩ := tup
          simp only [hr, Except.ok.injEq, Prod.mk.injEq] at h
          obtain ⟨-, hc, hs, hf⟩ := h
          subst hc; subst hs; subst hf
          simp only [List.map_cons]
          exact (@List.perm_middle _ p (c' ++ s') (f'.map Prod.fst)).trans ((ih hr).cons p)

/-- A copy phase that skipped nothing and failed nothing copied exactly
the candidate list, in order. -/
lemma copyPhase_all_copied {sr tr : String} {pd : List String} {ow : Bool}
    {l : List String} {fs fs' : FS} {c : List String}
    (h : copyPhase fs sr tr pd ow l = .ok (fs', c, [], [])) :
    c = l := by
  induction l generalizing fs fs' c with
  | nil =>
    simp only [copyPhase, Except.ok.injEq, Prod.mk.injEq] at h
    exact h.2.1.symm
  | cons p rest ih =>
    simp only [copyPhase] at h
    cases hg : _generate_target_path fs sr tr pd p with
    | error e => simp only [hg] at h; exact (Except.noConfusion h)
    | ok pr =>
      obtain ⟨fs1, dest⟩ := pr
      simp only [hg] at h
      cases hb : copyTryBody fs1 ow p dest with
      | ok pr2 =>
        obtain ⟨fs2, oc⟩ := pr2
        cases oc with
        | copied =>
          simp only [hb] at h
          cases hr : copyPhase fs2 sr tr pd ow rest with
          | error e2 => simp only [hr] at h; exact (Except.noConfusion h)
          | ok tup =>
            obtain ⟨fs3, c', s', f'⟩ := tup
            simp only [hr, Except.ok.injEq, Prod.mk.injEq] at h
            obtain ⟨-, hc, hs, hf⟩ := h
            subst hs; subst hf
            rw [← hc, ih hr]
        | skipped =>
          simp only [hb] at h
          cases hr : copyPhase fs2 sr tr pd ow rest with
          | error e2 => simp only [hr] at h; exact (Except.noConfusion h)
          | ok tup =>
            obtain ⟨fs3, c', s', f'⟩ := tup
            simp only [hr, Except.ok.injEq, Prod.mk.injEq] at h
            exact absurd h.2.2.1 (List.cons_ne_nil p s')
      | error e =>
        simp only [hb] at h
        cases hr : copyPhase fs1 sr tr pd ow rest with
        | error e2 => simp only [hr] at h; exact (Except.noConfusion h)
        | ok tup =>
          obtain ⟨fs3, c', s', f'⟩ := tup
          simp only [hr, Except.ok.injEq, Prod.mk.injEq] at h
          exact absurd h.2.2.2 (List.cons_ne_nil (p, e) f')

/-- With `overwrite = false`, a copy phase over candidates whose
destinations all already exist skips every candidate and leaves the
filesystem untouched. -/
lemma copyPhase_all_skipped {sr tr : String} {pd : List String}
    {l : List String} {fs : FS}
    (H : ∀ p ∈ l, ∃ ct, fs.getctime p = .ok ct ∧
      subdirFor sr tr pd p ct ∈ fs.dirs ∧
      fs.exists (destFor sr tr pd p ct) = true) :
    copyPhase fs sr tr pd false l = .ok (fs, [], l, []) := by
  induction l with
  | nil => rfl
  | cons p rest ih =>
    obtain ⟨ct, hct, hdir, hex⟩ := H p (List.mem_cons_self p rest)
    simp only [copyPhase, gtp_of_dirs hct hdir]
    have hbody : copyTryBody fs false p (destFor sr tr pd p ct) = .ok (fs, .skipped) := by
      unfold copyTryBody
      rw [if_pos hex, if_neg (by simp)]
    simp only [hbody, ih (fun q hq => H q (List.mem_cons_of_mem p hq))]

/-- The empty verification phase. -/
lemma verifyPhase_nil (fs : FS) (sr tr : String) (pd : List String) (alg : String) :
    verifyPhase fs sr tr pd alg [] = .ok (fs, [], []) := rfl

/-- The verification phase only reports on paths it was given: every
hash-mismatch entry and every failure source is an element of the list
it iterates over. -/
lemma verifyPhase_sources {sr tr : String} {pd : List String} {alg : String}
    {l : List String} {fs fs' : FS} {f : List (String × String)} {hm : List String}
    (h : verifyPhase fs sr tr pd alg l = .ok (fs', f, hm)) :
    (∀ x ∈ hm, x ∈ l) ∧ (∀ pr ∈ f, pr.1 ∈ l) := by
  induction l generalizing fs fs' f hm with
  | nil =>
    simp only [verifyPhase, Except.ok.injEq, Prod.mk.injEq] at h
    obtain ⟨-, hf, hhm⟩ := h
    subst hf; subst hhm
    exact ⟨fun x hx => absurd hx (List.not_mem_nil x), fun pr hpr => absurd hpr (List.not_mem_nil pr)⟩
  | cons p rest ih =>
    simp only [verifyPhase] at h
    cases hg : _generate_target_path fs sr tr pd p with
    | error e => simp only [hg] at h; exact (Except.noConfusion h)
    | ok pr =>
      obtain ⟨fs1, dest⟩ := pr
      simp only [hg] at h
      cases hb : verifyTryBody fs1 alg p dest with
      | ok b =>
        cases b with
        | true =>
          simp only [hb] at h
          cases hr : verifyPhase fs1 sr tr pd alg rest with
          | error e2 => simp only [hr] at h; exact (Except.noConfusion h)
          | ok tup =>
            obtain ⟨fs2, f', hm'⟩ := tup
            simp only [hr, Except.ok.injEq, Prod.mk.injEq] at h
            obtain ⟨-, hf, hhm⟩ := h
            subst hf; subst hhm
            refine ⟨fun x hx => ?_, fun pr hpr => List.mem_cons_of_mem p ((ih hr).2 pr hpr)⟩
            rcases List.mem_cons.mp hx with hx1 | hx2
            · exact hx1 ▸ List.mem_cons_self p rest
            · exact List.mem_cons_of_mem p ((ih hr).1 x hx2)
        | false =>
          simp only [hb] at h
          cases hr : verifyPhase fs1 sr tr pd alg rest with
          | error e2 => simp only [hr] at h; exact (Except.noConfusion h)
          | ok tup =>
            obtain ⟨fs2, f', hm'⟩ := tup
            simp only [hr, Except.ok.injEq, Prod.mk.injEq] at h
            obtain ⟨-, hf, hhm⟩ := h
            subst hf; subst hhm
            exact ⟨fun x hx => List.mem_cons_of_mem p ((ih hr).1 x hx),
              fun pr hpr => List.mem_cons_of_mem p ((ih hr).2 pr hpr)⟩
      | error e =>
        simp only [hb] at h
        cases hr : verifyPhase fs1 sr tr pd alg rest with
        | error e2 => simp only [hr] at h; exact (Except.noConfusion h)
        | ok tup =>
          obtain ⟨fs2, f', hm'⟩ := tup
          simp only [hr, Except.ok.injEq, Prod.mk.injEq] at h
          obtain ⟨-, hf, hhm⟩ := h
          subst hf; subst hhm
          refine ⟨fun x hx => List.mem_cons_of_mem p ((ih hr).1 x hx), fun pr hpr => ?_⟩
          rcases List.mem_cons.mp hpr with hp1 | hp2
          · rw [hp1]; exact List.mem_cons_self p rest
          · exact List.mem_cons_of_mem p ((ih hr).2 pr hp2)

/-- `enhanced_file_copy` unfolded into its three phases. -/
lemma efc_eq (fs : FS) (sr tr : String) (pd : List String)
    (suf : String) (ow : Bool) (alg : String) :
    enhanced_file_copy fs sr tr pd suf ow alg =
      match copyPhase fs sr tr pd ow (discover fs sr suf) with
      | .error e => .error e
      | .ok (fs1, c, s, f) =>
        match verifyPhase fs1 sr tr pd alg c with
        | .error e => .error e
        | .ok (fs2, f2, hm) =>
          .ok (fs2, { total_files := (discover fs sr suf).length, copied := c,
                      skipped := s, failed := f ++ f2, hash_mismatch := hm }) := rfl

/-- A successful run, destructured into its phase outcomes. -/
lemma efc_ok_elim {fs fs' : FS} {sr tr : String} {pd : List String}
    {suf : String} {ow : Bool} {alg : String} {r : CopyResult}
    (h : enhanced_file_copy fs sr tr pd suf ow alg = .ok (fs', r)) :
    ∃ fs1 c s f f2 hm,
      copyPhase fs sr tr pd ow (discover fs sr suf) = .ok (fs1, c, s, f) ∧
      verifyPhase fs1 sr tr pd alg c = .ok (fs', f2, hm) ∧
      r = { total_files := (discover fs sr suf).length, copied := c,
            skipped := s, failed := f ++ f2, hash_mismatch := hm } := by
  rw [efc_eq] at h
  cases hcp : copyPhase fs sr tr pd ow (discover fs sr suf) with
  | error e => simp only [hcp] at h; exact (Except.noConfusion h)
  | ok tup =>
    obtain ⟨fs1, c, s, f⟩ := tup
    simp only [hcp] at h
    cases hvp : verifyPhase fs1 sr tr pd alg c with
    | error e => simp only [hvp] at h; exact (Except.noConfusion h)
    | ok tup2 =>
      obtain ⟨fs2, f2, hm⟩ := tup2
      simp only [hvp, Except.ok.injEq, Prod.mk.injEq] at h
      obtain ⟨hfs, hr⟩ := h
      subst hfs
      exact ⟨fs1, c, s, f, f2, hm, rfl, hvp, hr.symm⟩

/-- The preserve-directory loop equals a first-match search over the
preserve list. -/
lemma targetSubdirOf_eq_find (tr : String) (pd segs : List String) :
    targetSubdirOf tr pd segs =
      match pd.find? (fun d => segs.contains d) with
      | some d => os_joinList tr (segs.drop (segs.indexOf d))
      | none => tr := by
  induction pd with
  | nil => rfl
  | cons d rest ih =>
    by_cases hd : segs.contains d = true
    · rw [List.find?_cons_of_pos _ hd]
      simp only [targetSubdirOf, hd, if_true]
    · rw [List.find?_cons_of_neg _ (by simpa using hd)]
      simp only [targetSubdirOf, hd, if_false]
      exact ih

/-- Claim C1, counterexample. On `fsBadTargetRoot` the single
candidate's destination-path derivation fails (directory creation is
denied inside `_generate_target_path`, which runs before the per-file
`try`), and the exception escapes `enhanced_file_copy` instead of being
recorded in `failed`: the run aborts with no result, refuting the claim
that any exception during derivation is caught and processing
continues. -/
theorem claim_C1_counterexample :
    enhanced_file_copy fsBadTargetRoot "src" "tgt" [] ".JPG" false "sha256" =
      .error "PermissionError: tgt" := rfl

/-- Claim C1, amended: an exception raised inside the per-file `try`
(destination existence check or the copy itself) is caught, recorded as
a `(path, error-message)` pair in `failed`, and processing continues
with the remaining candidates (an `ok` outcome for the rest stays
`ok`); an exception during destination-path derivation, by contrast,
propagates and aborts the run (see the counterexample). -/
theorem claim_C1_amended {fs fs1 : FS} {sr tr : String} {pd : List String}
    {ow : Bool} {src dest e : String} {rest : List String}
    (hg : _generate_target_path fs sr tr pd src = .ok (fs1, dest))
    (hb : copyTryBody fs1 ow src dest = .error e) :
    copyPhase fs sr tr pd ow (src :: rest) =
      Except.map (fun x => (x.1, x.2.1, x.2.2.1, (src, e) :: x.2.2.2))
        (copyPhase fs1 sr tr pd ow rest) := by
  simp only [copyPhase, hg, hb]
  cases copyPhase fs1 sr tr pd ow rest <;> rfl

/-- Claim C1, witness: on `fsBadDestFile` derivation succeeds but the
copy is denied; the failure is recorded and the run of the copy phase
still returns a result. -/
theorem claim_C1_witness :
    copyPhase fsBadDestFile "src" "tgt" [] false ["src/a.JPG"] =
      .ok (fsBadDestFileDir, [], [], [("src/a.JPG", "PermissionError: tgt/a.JPG")]) := by
  rw [@claim_C1_amended fsBadDestFile fsBadDestFileDir "src" "tgt" [] false
    "src/a.JPG" "tgt/a.JPG" "PermissionError: tgt/a.JPG" [] (by rfl) (by rfl)]
  rfl

/-- Claim C2: for a run that returns, `total_files` is the number of
discovered candidates, and the copy phase partitions the candidates:
`failed` splits into the copy-phase part `fC` followed by the
verify-phase part `fV`, and `copied ++ skipped ++ (sources of fC)` is a
permutation of the candidate list, so each candidate lands in exactly
one bucket. -/
theorem claim_C2_partition {fs fs' : FS} {sr tr : String} {pd : List String}
    {suf : String} {ow : Bool} {alg : String} {r : CopyResult}
    (h : enhanced_file_copy fs sr tr pd suf ow alg = .ok (fs', r)) :
    r.total_files = (discover fs sr suf).length ∧
    ∃ fC fV, r.failed = fC ++ fV ∧
      (r.copied ++ r.skipped ++ fC.map Prod.fst).Perm (discover fs sr suf) := by
  obtain ⟨fs1, c, s, f, f2, hm, hcp, hvp, hr⟩ := efc_ok_elim h
  subst hr
  exact ⟨rfl, f, f2, rfl, copyPhase_perm hcp⟩

/-- Claim C2, witness, on the one-file ingestion run. -/
theorem claim_C2_witness :
    rIngest.total_files = (discover fsIngest "src" ".JPG").length ∧
    ∃ fC fV, rIngest.failed = fC ++ fV ∧
      (rIngest.copied ++ rIngest.skipped ++ fC.map Prod.fst).Perm
        (discover fsIngest "src" ".JPG") :=
  @claim_C2_partition fsIngest fsIngested "src" "tgt" [] ".JPG" false "sha256" rIngest
    (by rfl)

/-- Claim C3: a successful derivation's destination is a function of the
source directory's path relative to the source root split into
segments, through `targetSubdirOf`; the preserve list is scanned in
caller order and the first preserve-dir present anywhere among the
segments anchors the segment suffix under the target root (a first-match
search over the preserve list); with no match, and in particular with
an empty preserve list, the subdirectory is the target root itself
(flattening); and the match is picked by preserve-list order, not path
depth: in the final concrete conjunct `PANORAMA` wins although
`HYPERLAPSE` appears earlier (shallower) in the path. -/
theorem claim_C3_preserve_match :
    (∀ (fs : FS) (sr tr : String) (pd : List String) (src : String) (fsa : FS) (d : String),
      _generate_target_path fs sr tr pd src = .ok (fsa, d) →
      ∃ ct, fs.getctime src = .ok ct ∧ d = destFor sr tr pd src ct) ∧
    (∀ (tr : String) (pd segs : List String),
      targetSubdirOf tr pd segs =
        match pd.find? (fun d => segs.contains d) with
        | some d => os_joinList tr (segs.drop (segs.indexOf d))
        | none => tr) ∧
    (∀ (tr : String) (segs : List String), targetSubdirOf tr [] segs = tr) ∧
    targetSubdirOf "T" ["PANORAMA", "HYPERLAPSE"] ["HYPERLAPSE", "x", "PANORAMA"] =
      "T/PANORAMA" := by
  refine ⟨?_, targetSubdirOf_eq_find, fun tr segs => rfl, rfl⟩
  intro fs sr tr pd src fsa d h
  obtain ⟨ct, hct, -, hd⟩ := gtp_ok_elim h
  exact ⟨ct, hct, hd⟩

/-- Claim C3, witness: the derivation of `img1.JPG` in the scenario tree
lands on the formula destination. -/
theorem claim_C3_witness :
    ∃ ct, fsScenario.getctime "A/PANORAMA/img1.JPG" = .ok ct ∧
      "T/20240301/PANORAMA/img1.JPG" =
        destFor "A" "T/data_str" ["PANORAMA"] "A/PANORAMA/img1.JPG" ct :=
  claim_C3_preserve_match.1 fsScenario "A" "T/data_str" ["PANORAMA"]
    "A/PANORAMA/img1.JPG" fsScenarioOut1 "T/20240301/PANORAMA/img1.JPG" (by rfl)

/-- Claim C4: a successful derivation replaces every occurrence of the
literal token `data_str` in the destination subdirectory with the
source's creation date formatted as 8-digit `YYYYMMDD`, and returns the
subdirectory joined with the source's base name; the second conjunct
shows the substitution hitting every occurrence; on the spec's two-file
scenario the derived destinations are `T/20240301/PANORAMA/img1.JPG`
and `T/20240302/img2.JPG`. -/
theorem claim_C4_date_substitution :
    (∀ (fs : FS) (sr tr : String) (pd : List String) (src : String) (fsa : FS) (d : String),
      _generate_target_path fs sr tr pd src = .ok (fsa, d) →
      ∃ ct, fs.getctime src = .ok ct ∧
        d = os_join
          (strReplace (targetSubdirOf tr pd (splitSep (relpath (dirname src) sr)))
            "data_str" (fmtYYYYMMDD ct))
          (basename src)) ∧
    strReplace "T/data_str/X/data_str" "data_str" "20240301" = "T/20240301/X/20240301" ∧
    Except.map Prod.snd (_generate_target_path fsScenario "A" "T/data_str" ["PANORAMA"]
      "A/PANORAMA/img1.JPG") = .ok "T/20240301/PANORAMA/img1.JPG" ∧
    Except.map Prod.snd (_generate_target_path fsScenario "A" "T/data_str" ["PANORAMA"]
      "A/B/img2.JPG") = .ok "T/20240302/img2.JPG" := by
  refine ⟨?_, rfl, rfl, rfl⟩
  intro fs sr tr pd src fsa d h
  obtain ⟨ct, hct, -, hd⟩ := gtp_ok_elim h
  exact ⟨ct, hct, hd⟩

/-- Claim C4, witness: the derivation of `img2.JPG` in the scenario tree
(no preserve match, so flattened under the dated target root). -/
theorem claim_C4_witness :
    ∃ ct, fsScenario.getctime "A/B/img2.JPG" = .ok ct ∧
      "T/20240302/img2.JPG" = os_join
        (strReplace (targetSubdirOf "T/data_str" ["PANORAMA"]
          (splitSep (relpath (dirname "A/B/img2.JPG") "A")))
          "data_str" (fmtYYYYMMDD ct))
        (basename "A/B/img2.JPG") :=
  claim_C4_date_substitution.1 fsScenario "A" "T/data_str" ["PANORAMA"]
    "A/B/img2.JPG" fsScenarioOut2 "T/20240302/img2.JPG" (by rfl)

/-- Claim C5: path derivation is deterministic — the returned
destination depends on the filesystem only through the source file's
creation timestamp, so two successful calls with identical arguments
and the same creation timestamp (in particular in the copy phase and
the verify phase of one run, or in repeated runs) return identical
destination paths. -/
theorem claim_C5_determinism {fsa fsb : FS} {sr tr : String} {pd : List String}
    {src : String} {fsa2 fsb2 : FS} {d1 d2 : String}
    (hct : fsa.getctime src = fsb.getctime src)
    (h1 : _generate_target_path fsa sr tr pd src = .ok (fsa2, d1))
    (h2 : _generate_target_path fsb sr tr pd src = .ok (fsb2, d2)) :
    d1 = d2 := by
  obtain ⟨c1, hc1, -, hd1⟩ := gtp_ok_elim h1
  obtain ⟨c2, hc2, -, hd2⟩ := gtp_ok_elim h2
  have hcc : (Except.ok c1 : Except String Nat) = .ok c2 :=
    hc1.symm.trans (hct.trans hc2)
  injection hcc with hcc'
  rw [hd1, hd2, hcc']

/-- Claim C5, witness: the same source file derived from two different
filesystem states (one with the destination diverged, one with it
missing) yields the same destination path. -/
theorem claim_C5_witness : ("tgt/a.JPG" : String) = "tgt/a.JPG" :=
  @claim_C5_determinism fsDivergedDest fsMissingDest "src" "tgt" [] "src/a.JPG"
    fsDivergedDest fsMissingDest "tgt/a.JPG" "tgt/a.JPG" (by rfl) (by rfl) (by rfl)

/-- Claim C6: in the verification phase, once a copied path's
destination has been re-derived, a missing destination appends a
destination-not-found failure to `failed` (wrapped in the verification
prefix) and adds nothing to `hash_mismatch` for that file; an existing
destination has both digests computed under the configured algorithm,
and a digest inequality appends the source path to `hash_mismatch` —
never silently ignored. -/
theorem claim_C6_verify_outcomes {fs fs1 : FS} {sr tr : String} {pd : List String}
    {alg src dest : String} {rest : List String}
    (hg : _generate_target_path fs sr tr pd src = .ok (fs1, dest)) :
    (fs1.exists dest = false →
      verifyPhase fs sr tr pd alg (src :: rest) =
        Except.map
          (fun x => (x.1, (src, "Hash校验失败: " ++ ("目标文件不存在: " ++ dest)) :: x.2.1, x.2.2))
          (verifyPhase fs1 sr tr pd alg rest)) ∧
    (∀ hs hd, fs1.exists dest = true →
      _compute_file_hash fs1 src alg = .ok hs →
      _compute_file_hash fs1 dest alg = .ok hd →
      hs ≠ hd →
      verifyPhase fs sr tr pd alg (src :: rest) =
        Except.map (fun x => (x.1, x.2.1, src :: x.2.2))
          (verifyPhase fs1 sr tr pd alg rest)) := by
  constructor
  · intro hex
    have hb : verifyTryBody fs1 alg src dest = .error ("目标文件不存在: " ++ dest) := by
      unfold verifyTryBody
      rw [if_neg (by simp [hex])]
    simp only [verifyPhase, hg, hb]
    cases verifyPhase fs1 sr tr pd alg rest <;> rfl
  · intro hs hd hex h1 h2 hne
    have hb : verifyTryBody fs1 alg src dest = .ok true := by
      unfold verifyTryBody
      rw [if_pos hex]
      simp only [h1, h2, Except.ok.injEq]
      exact bne_iff_ne.mpr hne
    simp only [verifyPhase, hg, hb]
    cases verifyPhase fs1 sr tr pd alg rest <;> rfl

/-- Claim C6, witness: on `fsMissingDest` the missing destination is
recorded in `failed` with the destination-not-found reason and nothing
in `hash_mismatch`; on `fsDivergedDest` the digest inequality lands the
source in `hash_mismatch`. -/
theorem claim_C6_witness :
    verifyPhase fsMissingDest "src" "tgt" [] "sha256" ["src/a.JPG"] =
      .ok (fsMissingDest, [("src/a.JPG", "Hash校验失败: 目标文件不存在: tgt/a.JPG")], []) ∧
    verifyPhase fsDivergedDest "src" "tgt" [] "sha256" ["src/a.JPG"] =
      .ok (fsDivergedDest, [], ["src/a.JPG"]) := by
  constructor
  · rw [(@claim_C6_verify_outcomes fsMissingDest fsMissingDest "src" "tgt" []
      "sha256" "src/a.JPG" "tgt/a.JPG" [] (by rfl)).1 (by rfl)]
    rfl
  · rw [(@claim_C6_verify_outcomes fsDivergedDest fsDivergedDest "src" "tgt" []
      "sha256" "src/a.JPG" "tgt/a.JPG" [] (by rfl)).2 "sha256:1" "sha256:2"
      (by rfl) (by rfl) (by rfl) (by decide)]
    rfl

/-- Claim C7: the verification phase iterates only over the copied list
(its mismatch entries and failure sources all come from `copied`, so a
skipped file is never hash-checked and can produce no mismatch report),
and it only appends: the run's result keeps the copy phase's
`total_files`, `copied` and `skipped` unchanged, with the copy-phase
failures a prefix of `failed`. -/
theorem claim_C7_frame {fs fs1 fs2 : FS} {sr tr : String} {pd : List String}
    {suf : String} {ow : Bool} {alg : String}
    {c s : List String} {f f2 : List (String × String)} {hm : List String}
    (hcp : copyPhase fs sr tr pd ow (discover fs sr suf) = .ok (fs1, c, s, f))
    (hvp : verifyPhase fs1 sr tr pd alg c = .ok (fs2, f2, hm)) :
    enhanced_file_copy fs sr tr pd suf ow alg =
      .ok (fs2, { total_files := (discover fs sr suf).length, copied := c,
                  skipped := s, failed := f ++ f2, hash_mismatch := hm }) ∧
    (∀ x ∈ hm, x ∈ c) ∧ (∀ pr ∈ f2, pr.1 ∈ c) := by
  refine ⟨?_, (verifyPhase_sources hvp).1, (verifyPhase_sources hvp).2⟩
  rw [efc_eq]
  simp only [hcp, hvp]

/-- Claim C7, witness, on the one-file ingestion run. -/
theorem claim_C7_witness :
    enhanced_file_copy fsIngest "src" "tgt" [] ".JPG" false "sha256" =
      .ok (fsIngested,
        { total_files := (discover fsIngest "src" ".JPG").length,
          copied := ["src/a.JPG"], skipped := [], failed := [] ++ [],
          hash_mismatch := [] }) ∧
    (∀ x ∈ ([] : List String), x ∈ ["src/a.JPG"]) ∧
    (∀ pr ∈ ([] : List (String × String)), pr.1 ∈ ["src/a.JPG"]) :=
  @claim_C7_frame fsIngest fsIngested fsIngested "src" "tgt" [] ".JPG" false "sha256"
    ["src/a.JPG"] [] [] [] [] (by rfl) (by rfl)

/-- Claim C8: with `overwrite = false`, re-running the engine with an
identical request on an already-ingested tree — the first run skipped
and failed nothing, the candidate list is unchanged, and (as the claim
presupposes) every candidate's creation timestamp still resolves and
its derived destination is present — returns `copied = []`,
`skipped` equal to all source paths copied by the previous run, the
same `total_files`, and leaves the filesystem (in particular every
existing destination file) unmodified. -/
theorem claim_C8_idempotence {fs0 fs1 : FS} {sr tr : String} {pd : List String}
    {suf alg : String} {r1 : CopyResult}
    (h1 : enhanced_file_copy fs0 sr tr pd suf false alg = .ok (fs1, r1))
    (h2 : r1.skipped = []) (h3 : r1.failed = [])
    (h4 : discover fs1 sr suf = discover fs0 sr suf)
    (hIng : ∀ p ∈ discover fs1 sr suf, ∃ ct, fs1.getctime p = .ok ct ∧
      subdirFor sr tr pd p ct ∈ fs1.dirs ∧
      fs1.exists (destFor sr tr pd p ct) = true) :
    enhanced_file_copy fs1 sr tr pd suf false alg =
      .ok (fs1, { total_files := r1.total_files, copied := [],
                  skipped := r1.copied, failed := [], hash_mismatch := [] }) := by
  obtain ⟨fsa, c, s, f, f2, hm, hcp, hvp, hr⟩ := efc_ok_elim h1
  have hs : s = [] := by rw [hr] at h2; exact h2
  have hff : f = [] ∧ f2 = [] := by
    rw [hr] at h3
    exact List.append_eq_nil.mp h3
  have hcp' : copyPhase fs0 sr tr pd false (discover fs0 sr suf) = .ok (fsa, c, [], []) := by
    rw [← hs, ← hff.1]; exact hcp
  have hc : c = discover fs0 sr suf := copyPhase_all_copied hcp'
  have hrc : r1.copied = c := by rw [hr]
  have hrt : r1.total_files = (discover fs0 sr suf).length := by rw [hr]
  rw [efc_eq]
  simp only [copyPhase_all_skipped hIng, verifyPhase_nil, List.nil_append]
  rw [hrt, hrc, hc, h4]

/-- Claim C8, witness: re-running the one-file ingestion on the
already-ingested tree skips the previously copied file. -/
theorem claim_C8_witness :
    enhanced_file_copy fsIngested "src" "tgt" [] ".JPG" false "sha256" =
      .ok (fsIngested, { total_files := rIngest.total_files, copied := [],
                         skipped := rIngest.copied, failed := [], hash_mismatch := [] }) :=
  @claim_C8_idempotence fsIngest fsIngested "src" "tgt" [] ".JPG" "sha256" rIngest
    (by rfl) (by rfl) (by rfl) (by rfl)
    (by
      intro p hp
      have hp2 : p ∈ ["src/a.JPG"] := hp
      obtain rfl := List.mem_singleton.mp hp2
      exact ⟨100, rfl, by decide, rfl⟩)

/-- Claim C9, counterexample. A nonexistent source root is not fatal:
`os.walk` (default `onerror=None`) silently yields no candidates, so
`enhanced_file_copy` on a tree with no `missing` root returns a normal
result with `total_files = 0` and all four lists empty — refuting the
claim that the error propagates and that no `total_files = 0` result is
returned for a nonexistent root. -/
theorem claim_C9_counterexample :
    enhanced_file_copy fsNoRoot "missing" "tgt" [] ".JPG" false "sha256" =
      .ok (fsNoRoot, { total_files := 0, copied := [], skipped := [], failed := [],
                       hash_mismatch := [] }) := rfl

/-- Claim C9, amended: a run whose discovery produces no candidates —
whether because the source root does not exist (silently ignored by
`os.walk`) or because no file matches the suffix — returns
`total_files = 0` with all four lists empty, without error and without
touching the filesystem. -/
theorem claim_C9_amended {fs : FS} {sr tr : String} {pd : List String}
    {suf : String} {ow : Bool} {alg : String}
    (h : discover fs sr suf = []) :
    enhanced_file_copy fs sr tr pd suf ow alg =
      .ok (fs, { total_files := 0, copied := [], skipped := [], failed := [],
                 hash_mismatch := [] }) := by
  rw [efc_eq, h]
  rfl

/-- Claim C9, witness: a readable root containing no file with the
requested suffix. -/
theorem claim_C9_witness :
    enhanced_file_copy fsIngest "src" "tgt" [] ".MOV" false "sha256" =
      .ok (fsIngest, { total_files := 0, copied := [], skipped := [], failed := [],
                       hash_mismatch := [] }) :=
  claim_C9_amended (by rfl)

/-- Claim C10: the result dictionary of `enhanced_file_copy` carries
exactly the keys `total_files` / `copied` / `skipped` / `failed` /
`hash_mismatch`, and the reporter `log_operation_results` reads
`result['file_type']` first — a key the engine never sets — so feeding
any engine result to the reporter raises `KeyError: file_type`. -/
theorem claim_C10_reporter_keyerror {fs fs' : FS} {sr tr : String} {pd : List String}
    {suf : String} {ow : Bool} {alg dev : String} {r : CopyResult}
    (_h : enhanced_file_copy fs sr tr pd suf ow alg = .ok (fs', r)) :
    log_operation_results dev r.toDict = .error "KeyError: file_type" := rfl

/-- Claim C10, witness, on the one-file ingestion result. -/
theorem claim_C10_witness :
    log_operation_results "NIKON Z50" rIngest.toDict = .error "KeyError: file_type" :=
  @claim_C10_reporter_keyerror fsIngest fsIngested "src" "tgt" [] ".JPG" false "sha256"
    "NIKON Z50" rIngest (by rfl)
